import Mathlib

/-!
Shallow embedding of the cache-backed search subsystem of `src/main.py`
(PlexSearch): the snapshot cache (`load_cache`, `save_cache`,
`refresh_cache`) and the two matchers (`search_exact`, `search_fuzzy`),
together with the rapidfuzz scoring function `fuzz.token_sort_ratio`
used by the fuzzy matcher.

Modelling conventions:
- timestamps (`time.time()`) and similarity scores (rapidfuzz floats)
  are rationals: every claim uses only ordered-field facts about them;
- a Python function that can raise is embedded in `Except Unit`;
- the external Plex service is passed in as data: the outcome of each
  remote call (`plex.library.sections()`, `section.all()`,
  `plex.search`, ...) is a parameter of the embedded function, with
  `Except.error ()` standing for a raised exception;
- cached item dictionaries are records of `Option` fields recording
  which of the four keys written by `refresh_cache` are present, since
  `search_fuzzy` mixes unguarded (`it["title"]`) and defensive
  (`it.get(...)`) access.
-/

namespace PlexSearch

/-- An item dictionary as stored in the cache file. Each field is
`some v` when the corresponding key is present. The `year` value may
itself be `null` (`getattr(item, "year", None)`), hence the nested
option. -/
structure DictItem where
  title : Option String
  year : Option (Option Int)
  type : Option String
  ratingKey : Option Nat
deriving DecidableEq

/-- A library entry of the cache: `{"title": ..., "type": ..., "items": [...]}`
as written by `refresh_cache` (main.py lines 63-67). -/
structure Library where
  title : String
  type : String
  items : List DictItem
deriving DecidableEq

/-- The cache dictionary `{"updated": ..., "libraries": {...}}`. The
libraries mapping is an insertion-ordered association list keyed by
`str(section.key)`, mirroring a Python dict. -/
structure Cache where
  updated : ℚ
  libraries : List (String × Library)
deriving DecidableEq

/-- The empty cache `{"updated": 0, "libraries": {}}` returned by
`load_cache` when the file is missing or unparsable. -/
def emptyCache : Cache := { updated := 0, libraries := [] }

/-- State of the on-disk cache file as `load_cache` observes it:
absent, present but failing `read_text`/`json.loads`, or parsed to a
cache value. -/
inductive Disk where
  | missing : Disk
  | malformed : String → Disk
  | stored : Cache → Disk
deriving DecidableEq

/-- Embedding of `load_cache` (main.py lines 36-42): a missing file or
a raised read/parse exception yields the empty cache; otherwise the
parsed content is returned as is. -/
def load_cache : Disk → Cache
  | Disk.missing => emptyCache
  | Disk.malformed _ => emptyCache
  | Disk.stored c => c

/-- Embedding of `save_cache` (main.py lines 44-45):
`CACHE_FILE.write_text(json.dumps(cache))` with no exception handler.
The boolean says whether the write succeeds; a failing write raises. -/
def save_cache (writeOk : Bool) : Except Unit Unit :=
  if writeOk then Except.ok () else Except.error ()

/-- CACHE_TTL = 60 * 60 * 6 seconds (main.py line 28). -/
def CACHE_TTL : ℚ := 60 * 60 * 6

/-- Decidable equality for embedded fallible results, used to evaluate
concrete runs of the embedded functions. -/
instance {ε α : Type} [DecidableEq ε] [DecidableEq α] :
    DecidableEq (Except ε α)
  | Except.error e, Except.error f =>
      if h : e = f then isTrue (by rw [h])
      else isFalse (fun hh => h (Except.error.inj hh))
  | Except.error _, Except.ok _ => isFalse (fun hh => Except.noConfusion hh)
  | Except.ok _, Except.error _ => isFalse (fun hh => Except.noConfusion hh)
  | Except.ok a, Except.ok b =>
      if h : a = b then isTrue (by rw [h])
      else isFalse (fun hh => h (Except.ok.inj hh))

/-- An item handle as yielded by `section.all()`: the attributes read
at main.py lines 57-61 (`title`, `type` and `ratingKey` unguarded,
`year` via `getattr(..., None)`). -/
structure RawItem where
  title : String
  year : Option Int
  type : String
  ratingKey : Nat
deriving DecidableEq

/-- A section handle from `plex.library.sections()`, with the outcome
of its `section.all()` enumeration embedded as data: `Except.error ()`
when iterating the section raises. -/
structure SvcSection where
  key : Int
  title : String
  type : String
  all : Except Unit (List RawItem)
deriving DecidableEq

/-- Projection of one raw item into the cached dictionary of main.py
lines 57-62: all four keys are always written. -/
def projectItem (i : RawItem) : DictItem :=
  { title := some i.title
    year := some i.year
    type := some i.type
    ratingKey := some i.ratingKey }

/-- The loop of main.py lines 52-69: build the `libraries` dict,
skipping (`continue`) any section whose enumeration raises. -/
def build_libraries : List SvcSection → List (String × Library)
  | [] => []
  | s :: rest =>
    match s.all with
    | Except.error _ => build_libraries rest
    | Except.ok items =>
        (toString s.key,
          { title := s.title, type := s.type, items := items.map projectItem })
          :: build_libraries rest

/-- The rebuild path of `refresh_cache` (main.py lines 52-72):
`plex.library.sections()` is called outside any handler, so a failure
of the whole enumeration propagates; after assembling the new cache,
`save_cache` is called, whose failure also propagates. -/
def rebuild (now : ℚ) (svc : Except Unit (List SvcSection)) (writeOk : Bool) :
    Except Unit Cache :=
  match svc with
  | Except.error e => Except.error e
  | Except.ok secs =>
      let cache : Cache := { updated := now, libraries := build_libraries secs }
      match save_cache writeOk with
      | Except.error e => Except.error e
      | Except.ok _ => Except.ok cache

/-- Embedding of `refresh_cache` (main.py lines 47-72). `svc` is the
outcome of `plex.library.sections()` and `writeOk` the disk writer's
behaviour; on a cache hit neither is consulted. -/
def refresh_cache (force : Bool) (disk : Disk) (now : ℚ)
    (svc : Except Unit (List SvcSection)) (writeOk : Bool) :
    Except Unit Cache :=
  let cache := load_cache disk
  if force = false ∧ now - cache.updated < CACHE_TTL then
    Except.ok cache
  else
    rebuild now svc writeOk

/-- Removal of leading and trailing whitespace from a character list,
as Python `str.strip()` with no argument. -/
def trimChars (l : List Char) : List Char :=
  ((l.dropWhile Char.isWhitespace).reverse.dropWhile Char.isWhitespace).reverse

/-- Normalization used on both queries and titles throughout main.py:
`s.strip().lower()` (lower-casing per character, which agrees with
Python on the ASCII titles at issue). -/
def norm (s : String) : String :=
  String.mk ((trimChars s.data).map Char.toLower)

/-- An item handle returned by a live Plex search, with the attributes
read at main.py lines 87-93. -/
structure LiveItem where
  title : String
  year : Option Int
  type : String
  ratingKey : Nat
  librarySectionTitle : String
deriving DecidableEq

/-- A match dictionary appended at main.py lines 88-94. -/
structure MatchRec where
  title : String
  year : Option Int
  type : String
  ratingKey : Nat
  library : String
deriving DecidableEq

/-- Projection of a live result into the match dictionary of main.py
lines 88-94. -/
def projExact (r : LiveItem) : MatchRec :=
  { title := r.title
    year := r.year
    type := r.type
    ratingKey := r.ratingKey
    library := r.librarySectionTitle }

/-- The filter loop of main.py lines 85-94: keep, in order, exactly
the results whose normalized title equals the normalized query. -/
def exact_matches (tn : String) : List LiveItem → List MatchRec
  | [] => []
  | r :: rs =>
      if norm r.title = tn then projExact r :: exact_matches tn rs
      else exact_matches tn rs

/-- Embedding of `search_exact` (main.py lines 74-95). The three
possible live requests are passed as data: `sectionSearch sid` is
`plex.library.sectionByID(sid)` followed by `section.search(title)`
(one `try` block covers both), `movieSearch` is
`plex.search(title, mediatype="movie")`, and `plainSearch` is the
fallback `plex.search(title)` at line 84, which runs outside any
handler, so its failure propagates. -/
def search_exact (title : String) (section_id : Option Int)
    (sectionSearch : Int → Except Unit (List LiveItem))
    (movieSearch : Except Unit (List LiveItem))
    (plainSearch : Except Unit (List LiveItem)) :
    Except Unit (List MatchRec) :=
  let title_norm := norm title
  let primary :=
    match section_id with
    | some sid => sectionSearch sid
    | none => movieSearch
  match primary with
  | Except.ok results => Except.ok (exact_matches title_norm results)
  | Except.error _ =>
      match plainSearch with
      | Except.ok results => Except.ok (exact_matches title_norm results)
      | Except.error e => Except.error e

/-- Accumulating pass of whitespace tokenization; `acc` holds the
current word reversed. -/
def splitWsAux : List Char → List Char → List (List Char)
  | [], acc => if acc.isEmpty then [] else [acc.reverse]
  | c :: cs, acc =>
      if c.isWhitespace then
        if acc.isEmpty then splitWsAux cs []
        else acc.reverse :: splitWsAux cs []
      else splitWsAux cs (c :: acc)

/-- Whitespace tokenization as in Python `str.split()` and rapidfuzz:
split on whitespace runs, discarding empty pieces. -/
def tokens (s : String) : List (List Char) :=
  splitWsAux s.data []

/-- Lexicographic comparison of character lists by code point, the
order Python `sorted` uses on strings. -/
def lexLe : List Char → List Char → Bool
  | [], _ => true
  | _ :: _, [] => false
  | x :: xs, y :: ys => if x = y then lexLe xs ys else decide (x < y)

/-- Propositional form of `lexLe`, the sorting relation for tokens. -/
def tokLe (a b : List Char) : Prop := lexLe a b = true

instance : DecidableRel tokLe := fun a b => instDecidableEqBool (lexLe a b) true

/-- The token-sort preprocessing of `fuzz.token_sort_ratio`: sort the
whitespace tokens and rejoin with single spaces. -/
def token_sort (s : String) : List Char :=
  List.intercalate [' '] ((tokens s).insertionSort tokLe)

/-- Inner loop of the InDel distance: `dx` is the distance function
from the tail `xs`, and `lx` the length of `x :: xs`. -/
def indelGo (x : Char) (dx : List Char → Nat) (lx : Nat) : List Char → Nat
  | [] => lx
  | y :: ys => if x = y then dx ys else 1 + min (dx (y :: ys)) (indelGo x dx lx ys)

/-- Levenshtein distance with insertions and deletions only (the InDel
distance underlying rapidfuzz `fuzz.ratio`), in a structurally
recursive form; `indelDist_cons_cons` below recovers the textbook
recurrence. -/
def indelDist : List Char → List Char → Nat
  | [], ys => ys.length
  | x :: xs, ys => indelGo x (indelDist xs) (xs.length + 1) ys

/-- rapidfuzz `fuzz.ratio`: normalized InDel similarity scaled to
0-100, with two empty strings scoring 100. -/
def simScore (a b : List Char) : ℚ :=
  if a.length + b.length = 0 then 100
  else
    100 * (1 - (indelDist a b : ℚ) / ((a.length + b.length : ℕ) : ℚ))

/-- rapidfuzz `fuzz.token_sort_ratio(a, b)`: `fuzz.ratio` applied to
the token-sorted forms of the two inputs (main.py line 111 calls it
with no processor, so no punctuation stripping happens). -/
def token_sort_score (a b : String) : ℚ :=
  simScore (token_sort a) (token_sort b)

/-- A fuzzy match dictionary as appended at main.py lines 113-119. -/
structure Found where
  title : String
  year : Option Int
  score : ℚ
  type : Option String
  ratingKey : Option Nat
deriving DecidableEq

/-- Construction of the fuzzy match dictionary: `title` comes from the
unguarded `it["title"]`, the remaining fields from defensive
`it.get(...)` access (missing key and stored `null` both give
`none`). -/
def mkFound (it : DictItem) (t : String) (score : ℚ) : Found :=
  { title := t
    year := (it.year).getD none
    score := score
    type := it.type
    ratingKey := it.ratingKey }

/-- The scoring loop of main.py lines 110-119: for each candidate,
read `it["title"]` (raising if the key is absent), score its
normalized form against the normalized query with
`fuzz.token_sort_ratio`, and keep it when `score >= threshold`. -/
def fuzzy_found (tn : String) (threshold : ℚ) :
    List DictItem → Except Unit (List Found)
  | [] => Except.ok []
  | it :: rest =>
      match it.title with
      | none => Except.error ()
      | some t =>
          let score := token_sort_score tn (norm t)
          match fuzzy_found tn threshold rest with
          | Except.error e => Except.error e
          | Except.ok fs =>
              Except.ok (if threshold ≤ score then mkFound it t score :: fs else fs)

/-- Candidate selection of main.py lines 101-108: the items of the
requested section (empty when the key is unknown), else the
concatenation of every library's items in insertion order. -/
def fuzzy_candidates (section_id : Option Int) (cache : Cache) :
    List DictItem :=
  match section_id with
  | some sid =>
      match cache.libraries.lookup (toString sid) with
      | some lib => lib.items
      | none => []
  | none => (cache.libraries.map (fun p => p.2.items)).flatten

/-- Python `sorted(found, key=lambda x: x["score"], reverse=True)`
(main.py line 120): a stable sort, descending on score, ties kept in
input order. Python specifies `sorted` only behaviourally (sorted by
the key, stable, `reverse=True` keeping ties in input order), and for
a total preorder those two properties determine the output uniquely,
so the stable `insertionSort` with the greater-or-equal-score
comparison is the same function. -/
def sort_found (fs : List Found) : List Found :=
  fs.insertionSort (fun a b => b.score ≤ a.score)

/-- Embedding of `search_fuzzy` (main.py lines 97-120) for an
explicitly supplied cache (the `cache is None` branch merely calls
`refresh_cache()` to obtain one). -/
def search_fuzzy (title : String) (threshold : ℚ) (section_id : Option Int)
    (cache : Cache) : Except Unit (List Found) :=
  let title_norm := norm title
  let items := fuzzy_candidates section_id cache
  match fuzzy_found title_norm threshold items with
  | Except.error e => Except.error e
  | Except.ok found => Except.ok (sort_found found)

/-- Presence of the four item keys written by every rebuild
(main.py lines 57-62). -/
def item_wf (it : DictItem) : Prop :=
  (it.title).isSome ∧ (it.year).isSome ∧ (it.type).isSome ∧
    (it.ratingKey).isSome

instance (it : DictItem) : Decidable (item_wf it) := by
  unfold item_wf; infer_instance

/-- A cache whose every stored item carries all four keys. -/
def cache_wf (c : Cache) : Prop :=
  ∀ p ∈ c.libraries, ∀ it ∈ p.2.items, item_wf it

instance (c : Cache) : Decidable (cache_wf c) := by
  unfold cache_wf; infer_instance

/-- Sample cached item used by concrete witnesses: the spec's Jurassic
Park scenario entry. -/
def jpItem : DictItem :=
  { title := some "Jurassic Park", year := some (some 1993),
    type := some "movie", ratingKey := some 100 }

/-- Sample one-library snapshot holding only `jpItem`, stored under
section key "1". -/
def jpCache : Cache :=
  { updated := 5, libraries :=
      [("1", { title := "Movies", type := "movie", items := [jpItem] })] }

/-- The fuzzy match dictionary produced for `jpItem` by the query
"jurassic park" (score 100). -/
def jpFound : Found :=
  { title := "Jurassic Park", year := some 1993, score := 100,
    type := some "movie", ratingKey := some 100 }

/-- Sample cached item with title "ab" and rating key `k`, used to
exhibit stable tie-breaking. -/
def abItem (k : Nat) : DictItem :=
  { title := some "ab", year := some none, type := some "movie",
    ratingKey := some k }

/-- Sample snapshot holding two items that tie on score for the query
"ab". -/
def abCache : Cache :=
  { updated := 0, libraries :=
      [("1", { title := "L", type := "movie",
               items := [abItem 1, abItem 2] })] }

/-- The fuzzy match dictionary produced for `abItem k` by the query
"ab" (score 100). -/
def abFound (k : Nat) : Found :=
  { title := "ab", year := none, score := 100, type := some "movie",
    ratingKey := some k }

/-- Sample raw service item for the rebuild witness. -/
def rawJp : RawItem :=
  { title := "Jurassic Park", year := some 1993, type := "movie",
    ratingKey := 100 }

/-- Sample service section whose enumeration succeeds with `rawJp`. -/
def svcJp : SvcSection :=
  { key := 1, title := "Movies", type := "movie", all := Except.ok [rawJp] }

/-- The snapshot a rebuild at time 42 produces from `svcJp`. -/
def builtJp : Cache :=
  { updated := 42, libraries :=
      [("1", { title := "Movies", type := "movie",
               items := [projectItem rawJp] })] }

/-- The textbook recurrence of the InDel distance, recovered from the
structurally recursive implementation. -/
theorem indelDist_cons_cons (x y : Char) (xs ys : List Char) :
    indelDist (x :: xs) (y :: ys) =
      if x = y then indelDist xs ys
      else 1 + min (indelDist xs (y :: ys)) (indelDist (x :: xs) ys) := by
  rfl

/-- C1: when the snapshot file is missing or its content fails to
parse, `load_cache` returns the canonical empty snapshot
(`updated = 0`, no libraries); being a total function of the disk
state, it propagates no error. -/
theorem load_cache_degrades_to_empty :
    load_cache Disk.missing = emptyCache ∧
    ∀ raw : String, load_cache (Disk.malformed raw) = emptyCache := by
  exact ⟨rfl, fun _ => rfl⟩

/-- C2 counterexample: with a failing disk writer, a forced refresh of
an empty cache against a service that returns no sections aborts with
the propagated write error instead of returning the in-memory
snapshot. -/
theorem save_failure_aborts_refresh :
    refresh_cache true Disk.missing 0 (Except.ok []) false = Except.error () := by
  rfl

/-- C2 amended: `save_cache` has no exception handler, so a write
failure propagates out of `refresh_cache`; whenever the rebuild path
runs with a failing writer the caller receives the error, and the only
way it still gets a snapshot is the cache-hit path that never writes. -/
theorem write_failure_propagates (force : Bool) (disk : Disk) (now : ℚ)
    (secs : List SvcSection) :
    rebuild now (Except.ok secs) false = Except.error () ∧
    (refresh_cache force disk now (Except.ok secs) false
        = Except.ok (load_cache disk) ∨
      refresh_cache force disk now (Except.ok secs) false
        = Except.error ()) := by
  refine ⟨rfl, ?_⟩
  simp only [refresh_cache]
  by_cases h : force = false ∧ now - (load_cache disk).updated < CACHE_TTL
  · exact Or.inl (by rw [if_pos h])
  · exact Or.inr (by rw [if_neg h]; rfl)

/-- C3: while the stored snapshot is younger than the TTL, a
non-forced refresh returns it unchanged whatever the service or the
writer would do (so no service call is consulted), and a forced
refresh always runs the rebuild path regardless of age. -/
theorem cache_hit_and_force_refresh (disk : Disk) (now : ℚ)
    (svc : Except Unit (List SvcSection)) (w : Bool) :
    (now - (load_cache disk).updated < CACHE_TTL →
      refresh_cache false disk now svc w = Except.ok (load_cache disk)) ∧
    refresh_cache true disk now svc w = rebuild now svc w := by
  constructor
  · intro h
    unfold refresh_cache
    rw [if_pos ⟨rfl, h⟩]
  · unfold refresh_cache
    rw [if_neg]
    rintro ⟨h1, -⟩
    exact Bool.noConfusion h1

/-- Witness for C3 at a stored snapshot of age 1 second. -/
theorem cache_hit_and_force_refresh_witness :
    ((6 : ℚ) - (load_cache (Disk.stored { updated := 5, libraries := [] })).updated
        < CACHE_TTL) ∧
    refresh_cache false (Disk.stored { updated := 5, libraries := [] }) 6
        (Except.error ()) false
      = Except.ok (load_cache (Disk.stored { updated := 5, libraries := [] })) :=
  ⟨by with_unfolding_all decide,
    (cache_hit_and_force_refresh (Disk.stored { updated := 5, libraries := [] })
      6 (Except.error ()) false).1 (by with_unfolding_all decide)⟩

/-- C4 counterexample: with a stale stored snapshot and a service
whose section enumeration fails entirely, `refresh_cache` propagates
the error instead of returning the stale snapshot unchanged. -/
theorem sections_failure_not_stale_fallback :
    refresh_cache false (Disk.stored { updated := 3, libraries := [] }) 1000000
        (Except.error ()) true
      = Except.error () := by
  with_unfolding_all decide

/-- C4 amended: a total failure of the section enumeration propagates
out of a stale refresh (the stale snapshot is not returned), while a
per-section enumeration failure merely skips that section: the
assembled libraries are exactly those of the sections whose
enumeration succeeded, in order. -/
theorem rebuild_failure_policy (disk : Disk) (now : ℚ) (w : Bool)
    (secs : List SvcSection) :
    (¬ now - (load_cache disk).updated < CACHE_TTL →
      refresh_cache false disk now (Except.error ()) w = Except.error ()) ∧
    build_libraries secs = secs.filterMap (fun s =>
      (s.all.toOption).map (fun items =>
        (toString s.key,
          { title := s.title, type := s.type, items := items.map projectItem }))) := by
  constructor
  · intro h
    unfold refresh_cache
    rw [if_neg (fun hc => h hc.2)]
    rfl
  · induction secs with
    | nil => rfl
    | cons s rest ih =>
        cases hall : s.all with
        | error e => simp [build_libraries, hall, Except.toOption, ih]
        | ok items => simp [build_libraries, hall, Except.toOption, ih]

/-- Witness for C4 amended at a 3-second-old snapshot queried long
past the TTL. -/
theorem rebuild_failure_policy_witness :
    (¬ (1000000 : ℚ) -
          (load_cache (Disk.stored { updated := 3, libraries := [] })).updated
        < CACHE_TTL) ∧
    refresh_cache false (Disk.stored { updated := 3, libraries := [] }) 1000000
        (Except.error ()) true
      = Except.error () :=
  ⟨by with_unfolding_all decide,
    (rebuild_failure_policy (Disk.stored { updated := 3, libraries := [] })
      1000000 true []).1 (by with_unfolding_all decide)⟩

/-- C5 counterexample: when the primary request and the server-wide
fallback both fail, `search_exact` propagates the exception rather
than returning the empty list. -/
theorem double_failure_raises :
    search_exact "x" none (fun _ => Except.error ()) (Except.error ())
        (Except.error ())
      = Except.error () := by
  rfl

/-- C5 amended: the primary request is section-scoped when a section
id is given and otherwise the movie-restricted server-wide search; if
it fails, exactly one unscoped retry is made; if that retry also
fails, the error propagates to the caller (no empty-result degrade). -/
theorem exact_fallback_policy (title : String) (section_id : Option Int)
    (sectionSearch : Int → Except Unit (List LiveItem))
    (movieSearch plainSearch : Except Unit (List LiveItem)) :
    let primary := match section_id with
      | some sid => sectionSearch sid
      | none => movieSearch
    (∀ rs, primary = Except.ok rs →
      search_exact title section_id sectionSearch movieSearch plainSearch
        = Except.ok (exact_matches (norm title) rs)) ∧
    (primary = Except.error () → ∀ rs, plainSearch = Except.ok rs →
      search_exact title section_id sectionSearch movieSearch plainSearch
        = Except.ok (exact_matches (norm title) rs)) ∧
    (primary = Except.error () → plainSearch = Except.error () →
      search_exact title section_id sectionSearch movieSearch plainSearch
        = Except.error ()) := by
  intro primary
  refine ⟨?_, ?_, ?_⟩
  · intro rs h
    unfold search_exact
    rw [show (match section_id with
        | some sid => sectionSearch sid
        | none => movieSearch) = primary from rfl, h]
  · intro h rs hp
    unfold search_exact
    rw [show (match section_id with
        | some sid => sectionSearch sid
        | none => movieSearch) = primary from rfl, h, hp]
  · intro h hp
    unfold search_exact
    rw [show (match section_id with
        | some sid => sectionSearch sid
        | none => movieSearch) = primary from rfl, h, hp]

/-- Witness for C5 amended: a failing movie search followed by a
successful unscoped retry yields the filtered results of the retry. -/
theorem exact_fallback_policy_witness :
    search_exact "x" none (fun _ => Except.error ()) (Except.error ())
        (Except.ok [])
      = Except.ok (exact_matches (norm "x") []) :=
  (exact_fallback_policy "x" none (fun _ => Except.error ())
    (Except.error ()) (Except.ok [])).2.1 rfl [] rfl

/-- The filter loop is the filter of the predicate "normalized title
equals the normalized query", projected to match dictionaries. -/
theorem exact_matches_eq (tn : String) (rs : List LiveItem) :
    exact_matches tn rs
      = (rs.filter (fun r => norm r.title == tn)).map projExact := by
  induction rs with
  | nil => rfl
  | cons r rest ih =>
      by_cases h : norm r.title = tn
      · simp [exact_matches, h, ih]
      · simp [exact_matches, h, ih]

/-- Projection to the match dictionary keeps all five fields, hence is
injective. -/
theorem projExact_injective : Function.Injective projExact := by
  intro a b h
  cases a
  cases b
  simpa [projExact, MatchRec.mk.injEq, LiveItem.mk.injEq] using h

/-- C6: the exact matcher keeps exactly the live results whose
normalized title equals the normalized query: every output entry has
the normalized query as its normalized title, and each returned item
appears in the output exactly as often as in the input when its
normalized title matches, and not at all otherwise. -/
theorem exact_filter_correct (q : String) (results : List LiveItem) :
    search_exact q none (fun _ => Except.error ()) (Except.ok results)
        (Except.error ())
      = Except.ok (exact_matches (norm q) results) ∧
    (∀ m ∈ exact_matches (norm q) results, norm m.title = norm q) ∧
    (∀ r ∈ results,
      List.count (projExact r) (exact_matches (norm q) results)
        = if norm r.title = norm q then List.count r results else 0) := by
  refine ⟨rfl, ?_, ?_⟩
  · rw [exact_matches_eq]
    intro m hm
    obtain ⟨r, hr, rfl⟩ := List.mem_map.mp hm
    have := (List.mem_filter.mp hr).2
    simpa [projExact] using this
  · intro r _
    rw [exact_matches_eq,
      List.count_map_of_injective _ _ projExact_injective]
    by_cases h : norm r.title = norm q
    · rw [if_pos h, List.count_filter]
      simp [h]
    · rw [if_neg h, List.count_eq_zero]
      intro hmem
      exact h (by simpa using (List.mem_filter.mp hmem).2)

/-- Witness for C6 at the spec's Jurassic Park scenario: the single
matching live item is kept exactly once. -/
theorem exact_filter_correct_witness :
    (⟨"Jurassic Park", some 1993, "movie", 100, "Movies"⟩ : LiveItem)
        ∈ [(⟨"Jurassic Park", some 1993, "movie", 100, "Movies"⟩ : LiveItem)] ∧
    List.count
        (projExact ⟨"Jurassic Park", some 1993, "movie", 100, "Movies"⟩)
        (exact_matches (norm "Jurassic Park ")
          [⟨"Jurassic Park", some 1993, "movie", 100, "Movies"⟩])
      = if norm (⟨"Jurassic Park", some 1993, "movie", 100, "Movies"⟩ :
            LiveItem).title = norm "Jurassic Park " then
          List.count (⟨"Jurassic Park", some 1993, "movie", 100, "Movies"⟩ :
            LiveItem)
            [⟨"Jurassic Park", some 1993, "movie", 100, "Movies"⟩]
        else 0 :=
  ⟨by simp,
    (exact_filter_correct "Jurassic Park "
      [⟨"Jurassic Park", some 1993, "movie", 100, "Movies"⟩]).2.2
      ⟨"Jurassic Park", some 1993, "movie", 100, "Movies"⟩ (by simp)⟩

/-- Every dictionary kept by the scoring loop scored at least the
threshold. -/
theorem fuzzy_found_score_bound (tn : String) (thr : ℚ) :
    ∀ (items : List DictItem) (fs : List Found),
      fuzzy_found tn thr items = Except.ok fs → ∀ f ∈ fs, thr ≤ f.score := by
  intro items
  induction items with
  | nil =>
      intro fs h f hf
      cases h
      cases hf
  | cons it rest ih =>
      intro fs h f hf
      rcases hti : it.title with - | t
      · rw [fuzzy_found, hti] at h
        cases h
      · rw [fuzzy_found, hti] at h
        rcases hrec : fuzzy_found tn thr rest with e | fs₀
        · rw [hrec] at h
          cases h
        · rw [hrec] at h
          dsimp only at h
          by_cases hs : thr ≤ token_sort_score tn (norm t)
          · rw [if_pos hs] at h
            injection h with h
            subst h
            rcases List.mem_cons.mp hf with hf | hf
            · rw [hf]
              exact hs
            · exact ih fs₀ hrec f hf
          · rw [if_neg hs] at h
            injection h with h
            subst h
            exact ih fs₀ hrec f hf

/-- Raising the threshold filters the kept dictionaries: the loop at a
higher threshold returns exactly the lower-threshold result restricted
to scores reaching the higher threshold. -/
theorem fuzzy_found_filter (tn : String) (thr thr' : ℚ) (hle : thr ≤ thr') :
    ∀ (items : List DictItem) (fs : List Found),
      fuzzy_found tn thr items = Except.ok fs →
      fuzzy_found tn thr' items
        = Except.ok (fs.filter (fun f => thr' ≤ f.score)) := by
  intro items
  induction items with
  | nil =>
      intro fs h
      cases h
      rfl
  | cons it rest ih =>
      intro fs h
      rcases hti : it.title with - | t
      · rw [fuzzy_found, hti] at h
        cases h
      · rw [fuzzy_found, hti] at h
        rcases hrec : fuzzy_found tn thr rest with e | fs₀
        · rw [hrec] at h
          cases h
        · rw [hrec] at h
          dsimp only at h
          have ih' := ih fs₀ hrec
          rw [fuzzy_found, hti, ih']
          dsimp only
          by_cases hs : thr ≤ token_sort_score tn (norm t)
          · rw [if_pos hs] at h
            injection h with h
            subst h
            by_cases hs' : thr' ≤ token_sort_score tn (norm t)
            · simp [hs', mkFound]
            · simp [hs', mkFound]
          · rw [if_neg hs] at h
            injection h with h
            subst h
            have hs' : ¬ thr' ≤ token_sort_score tn (norm t) :=
              fun hc => hs (le_trans hle hc)
            rw [if_neg hs']

/-- C7: every result of the fuzzy search scores at least the
threshold, and for fixed query and snapshot the number of results is
antitone in the threshold. -/
theorem fuzzy_threshold_bound_antitone (q : String) (thr thr' : ℚ)
    (sid : Option Int) (c : Cache) (res res' : List Found)
    (h : search_fuzzy q thr sid c = Except.ok res) :
    (∀ f ∈ res, thr ≤ f.score) ∧
    (thr ≤ thr' → search_fuzzy q thr' sid c = Except.ok res' →
      res'.length ≤ res.length) := by
  simp only [search_fuzzy] at h
  rcases hf : fuzzy_found (norm q) thr (fuzzy_candidates sid c) with e | fs
  · rw [hf] at h
    cases h
  · rw [hf] at h
    cases h
    constructor
    · intro f hfmem
      have : f ∈ fs := by
        simpa [sort_found] using hfmem
      exact fuzzy_found_score_bound (norm q) thr _ fs hf f this
    · intro hle h'
      simp only [search_fuzzy] at h'
      rw [fuzzy_found_filter (norm q) thr thr' hle _ fs hf] at h'
      cases h'
      simp [sort_found, List.length_insertionSort]
      exact List.length_filter_le _ fs

set_option maxRecDepth 10000 in
/-- Witness for C7 on a one-item snapshot: at threshold 80 the item is
returned with score 100, the bound holds at it, and raising the
threshold to 100 keeps the result count at one. -/
theorem fuzzy_threshold_bound_antitone_witness :
    search_fuzzy "jurassic park" 80 (some 1) jpCache = Except.ok [jpFound] ∧
    (80 : ℚ) ≤ jpFound.score ∧
    List.length [jpFound] ≤ List.length [jpFound] :=
  ⟨by with_unfolding_all decide,
    (fuzzy_threshold_bound_antitone "jurassic park" 80 100 (some 1) jpCache
        [jpFound] [jpFound] (by with_unfolding_all decide)).1
      jpFound (by simp),
    (fuzzy_threshold_bound_antitone "jurassic park" 80 100 (some 1) jpCache
        [jpFound] [jpFound] (by with_unfolding_all decide)).2
      (by norm_num) (by with_unfolding_all decide)⟩

/-- C8: the fuzzy search returns the kept dictionaries sorted in
descending score order, and the sort is stable: two results with equal
scores keep the relative order they had in the candidate scoring
order. -/
theorem fuzzy_sorted_stable (q : String) (thr : ℚ) (sid : Option Int)
    (c : Cache) (fs : List Found)
    (h : fuzzy_found (norm q) thr (fuzzy_candidates sid c) = Except.ok fs) :
    search_fuzzy q thr sid c = Except.ok (sort_found fs) ∧
    (sort_found fs).Pairwise (fun a b => b.score ≤ a.score) ∧
    (∀ x y : Found, x.score = y.score → List.Sublist [x, y] fs →
      List.Sublist [x, y] (sort_found fs)) := by
  refine ⟨?_, ?_, ?_⟩
  · simp only [search_fuzzy]
    rw [h]
  · haveI : IsTotal Found (fun a b => b.score ≤ a.score) :=
      ⟨fun a b => le_total b.score a.score⟩
    haveI : IsTrans Found (fun a b => b.score ≤ a.score) :=
      ⟨fun _ _ _ hab hbc => le_trans hbc hab⟩
    exact List.sorted_insertionSort _ fs
  · intro x y hxy hsub
    exact List.pair_sublist_insertionSort (le_of_eq hxy.symm) hsub

set_option maxRecDepth 10000 in
/-- Witness for C8 on a two-item snapshot with equal scores: both
items are kept in candidate order. -/
theorem fuzzy_sorted_stable_witness :
    search_fuzzy "ab" 50 none abCache
      = Except.ok (sort_found [abFound 1, abFound 2]) :=
  (fuzzy_sorted_stable "ab" 50 none abCache [abFound 1, abFound 2]
    (by with_unfolding_all decide)).1

/-- The token comparison is total. -/
theorem lexLe_total : ∀ a b : List Char, lexLe a b = true ∨ lexLe b a = true := by
  intro a
  induction a with
  | nil => intro b; exact Or.inl rfl
  | cons x xs ih =>
      intro b
      cases b with
      | nil => exact Or.inr rfl
      | cons y ys =>
          by_cases hxy : x = y
          · subst hxy
            rcases ih ys with h | h
            · exact Or.inl (by simp [lexLe, h])
            · exact Or.inr (by simp [lexLe, h])
          · rcases lt_or_gt_of_ne hxy with h | h
            · exact Or.inl (by simp [lexLe, hxy, h])
            · exact Or.inr (by simp [lexLe, Ne.symm hxy, h])

/-- The token comparison is transitive. -/
theorem lexLe_trans : ∀ a b c : List Char,
    lexLe a b = true → lexLe b c = true → lexLe a c = true := by
  intro a
  induction a with
  | nil => intro b c _ _; rfl
  | cons x xs ih =>
      intro b c hab hbc
      cases b with
      | nil => simp [lexLe] at hab
      | cons y ys =>
          cases c with
          | nil => simp [lexLe] at hbc
          | cons z zs =>
              by_cases hxy : x = y
              · subst hxy
                by_cases hxz : x = z
                · subst hxz
                  simp only [lexLe, if_pos rfl] at hab hbc ⊢
                  exact ih ys zs hab hbc
                · simp only [lexLe, if_pos rfl] at hab
                  simpa [lexLe, hxz] using hbc
              · by_cases hyz : y = z
                · subst hyz
                  simpa [lexLe, hxy] using hab
                · simp only [lexLe, if_neg hxy, decide_eq_true_eq] at hab
                  simp only [lexLe, if_neg hyz, decide_eq_true_eq] at hbc
                  have hxz : x < z := lt_trans hab hbc
                  simp [lexLe, ne_of_lt hxz, hxz]

/-- The token comparison is antisymmetric. -/
theorem lexLe_antisymm : ∀ a b : List Char,
    lexLe a b = true → lexLe b a = true → a = b := by
  intro a
  induction a with
  | nil =>
      intro b hab hba
      cases b with
      | nil => rfl
      | cons y ys => simp [lexLe] at hba
  | cons x xs ih =>
      intro b hab hba
      cases b with
      | nil => simp [lexLe] at hab
      | cons y ys =>
          by_cases hxy : x = y
          · subst hxy
            simp only [lexLe, if_pos rfl] at hab hba
            rw [ih ys hab hba]
          · simp only [lexLe, if_neg hxy, decide_eq_true_eq] at hab
            simp only [lexLe, if_neg (Ne.symm hxy), decide_eq_true_eq] at hba
            exact absurd hba (not_lt_of_gt hab)

instance : IsTotal (List Char) tokLe := ⟨lexLe_total⟩

instance : IsTrans (List Char) tokLe := ⟨lexLe_trans⟩

instance : IsAntisymm (List Char) tokLe := ⟨lexLe_antisymm⟩

/-- Strings with the same whitespace tokens up to order have the same
token-sorted form: sorting makes the token order irrelevant. -/
theorem token_sort_congr (a a' : String) (h : List.Perm (tokens a) (tokens a')) :
    token_sort a = token_sort a' := by
  unfold token_sort
  congr 1
  exact List.eq_of_perm_of_sorted
    (((List.perm_insertionSort tokLe (tokens a)).trans h).trans
      (List.perm_insertionSort tokLe (tokens a')).symm)
    (List.sorted_insertionSort tokLe (tokens a))
    (List.sorted_insertionSort tokLe (tokens a'))

set_option maxRecDepth 10000 in
/-- C9 counterexample: "Park, Jurassic" is not a whitespace-token
reordering of "Jurassic Park" (the comma stays attached to its token),
and indeed the normalized score of the query "Jurassic Park" against
it differs from the score against "Jurassic Park" itself (2600/27
versus 100). -/
theorem comma_reorder_score_differs :
    token_sort_score (norm "Jurassic Park") (norm "Park, Jurassic")
      ≠ token_sort_score (norm "Jurassic Park") (norm "Jurassic Park") := by
  with_unfolding_all decide

/-- C9 amended: the similarity score is invariant under reordering of
the whitespace-separated tokens of either input, because both inputs
are token-sorted before the edit-based ratio; the spec's concrete pair
"Jurassic Park" / "Park, Jurassic" is however not such a reordering
(the comma changes a token) and scores differently. -/
theorem token_sort_score_perm_invariant (a a' b b' : String)
    (ha : List.Perm (tokens a) (tokens a')) (hb : List.Perm (tokens b) (tokens b')) :
    token_sort_score a b = token_sort_score a' b' := by
  unfold token_sort_score
  rw [token_sort_congr a a' ha, token_sort_congr b b' hb]

set_option maxRecDepth 10000 in
/-- Witness for C9 amended: "park jurassic" is a token reordering of
"jurassic park", and the scores of the two against the query agree. -/
theorem token_sort_score_perm_invariant_witness :
    List.Perm (tokens "jurassic park") (tokens "park jurassic") ∧
    token_sort_score "jurassic park" "jurassic park"
      = token_sort_score "park jurassic" "jurassic park" :=
  ⟨by decide,
    token_sort_score_perm_invariant "jurassic park" "park jurassic"
      "jurassic park" "jurassic park" (by decide) (List.Perm.refl _)⟩

/-- Every library assembled by the rebuild loop stores items carrying
all four keys. -/
theorem build_libraries_wf : ∀ (secs : List SvcSection),
    ∀ p ∈ build_libraries secs, ∀ it ∈ p.2.items, item_wf it := by
  intro secs
  induction secs with
  | nil => intro p hp; cases hp
  | cons sct rest ih =>
      intro p hp it hit
      rw [build_libraries] at hp
      rcases hall : sct.all with e | items
      · rw [hall] at hp
        exact ih p hp it hit
      · rw [hall] at hp
        rcases List.mem_cons.mp hp with hp | hp
        · subst hp
          simp only at hit
          obtain ⟨i, -, rfl⟩ := List.mem_map.mp hit
          exact ⟨rfl, rfl, rfl, rfl⟩
        · exact ih p hp it hit

/-- A successful association-list lookup comes from a binding of the
looked-up key. -/
theorem lookup_mem : ∀ (l : List (String × Library)) (k : String)
    (lib : Library), l.lookup k = some lib → (k, lib) ∈ l := by
  intro l
  induction l with
  | nil => intro k lib h; cases h
  | cons p rest ih =>
      intro k lib h
      rw [List.lookup] at h
      rcases hk : (k == p.1) with - | -
      · rw [hk] at h
        exact List.mem_cons_of_mem p (ih k lib h)
      · rw [hk] at h
        injection h with h
        have : k = p.1 := eq_of_beq hk
        subst h
        rw [this]
        exact List.mem_cons_self p rest

/-- Every fuzzy candidate is an item of one of the snapshot's
libraries. -/
theorem fuzzy_candidates_sub (sid : Option Int) (c : Cache) :
    ∀ it ∈ fuzzy_candidates sid c, ∃ p ∈ c.libraries, it ∈ p.2.items := by
  intro it hit
  rcases sid with - | n
  · simp only [fuzzy_candidates] at hit
    obtain ⟨l, hl, hitl⟩ := List.mem_flatten.mp hit
    obtain ⟨p, hp, rfl⟩ := List.mem_map.mp hl
    exact ⟨p, hp, hitl⟩
  · simp only [fuzzy_candidates] at hit
    rcases hk : c.libraries.lookup (toString n) with - | lib
    · rw [hk] at hit
      cases hit
    · rw [hk] at hit
      exact ⟨(toString n, lib), lookup_mem c.libraries (toString n) lib hk, hit⟩

/-- When every candidate carries a title key the scoring loop cannot
fail. -/
theorem fuzzy_found_total (tn : String) (thr : ℚ) :
    ∀ (items : List DictItem), (∀ it ∈ items, (it.title).isSome) →
      ∃ fs, fuzzy_found tn thr items = Except.ok fs := by
  intro items
  induction items with
  | nil => intro _; exact ⟨[], rfl⟩
  | cons it rest ih =>
      intro h
      obtain ⟨fs₀, hfs₀⟩ := ih (fun x hx => h x (List.mem_cons_of_mem it hx))
      have hsome := h it (List.mem_cons_self it rest)
      rcases hti : it.title with - | t
      · rw [hti] at hsome
        cases hsome
      · refine ⟨if thr ≤ token_sort_score tn (norm t)
            then mkFound it t (token_sort_score tn (norm t)) :: fs₀ else fs₀, ?_⟩
        rw [fuzzy_found, hti, hfs₀]

/-- C10: a snapshot produced by the rebuild stores, for every item,
all four keys (title, year, type, ratingKey), and on any snapshot
satisfying that invariant the fuzzy search cannot fail: its unguarded
title access always finds the key. -/
theorem rebuild_items_wf_fuzzy_total (now : ℚ) (secs : List SvcSection)
    (w : Bool) (c : Cache) (q : String) (thr : ℚ) (sid : Option Int) :
    (rebuild now (Except.ok secs) w = Except.ok c → cache_wf c) ∧
    (cache_wf c → (search_fuzzy q thr sid c).isOk = true) := by
  constructor
  · intro h
    cases w with
    | false => cases h
    | true =>
        injection h with h
        subst h
        intro p hp it hit
        exact build_libraries_wf secs p hp it hit
  · intro hwf
    obtain ⟨fs, hfs⟩ := fuzzy_found_total (norm q) thr (fuzzy_candidates sid c)
      (fun it hit => by
        obtain ⟨p, hp, hitp⟩ := fuzzy_candidates_sub sid c it hit
        exact (hwf p hp it hitp).1)
    simp only [search_fuzzy]
    rw [hfs]
    rfl

set_option maxRecDepth 10000 in
/-- Witness for C10: the rebuild from one well-behaved section yields
a snapshot with all four keys on its item, on which the fuzzy search
succeeds. -/
theorem rebuild_items_wf_fuzzy_total_witness :
    rebuild 42 (Except.ok [svcJp]) true = Except.ok builtJp ∧
    cache_wf builtJp ∧
    (search_fuzzy "jurassic park" 80 (some 1) builtJp).isOk = true :=
  ⟨by with_unfolding_all decide,
    (rebuild_items_wf_fuzzy_total 42 [svcJp] true builtJp "jurassic park"
        80 (some 1)).1 (by with_unfolding_all decide),
    (rebuild_items_wf_fuzzy_total 42 [svcJp] true builtJp "jurassic park"
        80 (some 1)).2
      ((rebuild_items_wf_fuzzy_total 42 [svcJp] true builtJp "jurassic park"
        80 (some 1)).1 (by with_unfolding_all decide))⟩

end PlexSearch
